import Mathlib

/-!
Shallow embedding of `models/autoencoder_models/stacked_denoising_autoencoder.py`
(class `StackedDenoisingAutoencoder`), together with models of the two repository
collaborators that the file calls but that are not part of the file itself
(`denoising_autoencoder.DenoisingAutoencoder` and `utilities.gen_batches`).

TensorFlow graph construction is embedded symbolically (an inductive type of
graph nodes); graph evaluation is embedded as a recursive evaluator over
rational matrices, with dropout's randomness supplied explicitly as an
environment function.  Python `IndexError` on list indexing is embedded as
`Option`.
-/

set_option autoImplicit false

namespace SDAE

/-! ### Symbolic TensorFlow graph nodes

The graph-construction calls made by `build_model` and its helpers
(`_create_encoding_layers`, `_create_softmax_layer`).  `encW l` / `encB l`
stand for the variables `self.encoding_w_[l]` / `self.encoding_b_[l]`,
`smW` / `smB` for `self.softmax_W` / `self.softmax_b`.  In
`_create_encoding_layers` the local `layer_y` is Python `None` whenever the
configured activation is unrecognized, and `tf.nn.dropout` is applied to it
anyway; hence the first argument of `dropout` is an `Option`. -/

inductive TFNode where
  | inputData                           -- tf.placeholder 'x-input'
  | inputLabels                         -- tf.placeholder 'y-input'
  | keepProb                            -- tf.placeholder 'keep-probs'
  | encW (l : Nat)
  | encB (l : Nat)
  | smW
  | smB
  | matmul (a b : TFNode)
  | add (a b : TFNode)
  | sigmoid (x : TFNode)
  | tanh (x : TFNode)
  | relu (x : TFNode)
  | dropout (x : Option TFNode) (keep : TFNode)
  deriving Repr

/-! ### Datasets (symbolic)

For the pretraining pipeline only the shape and the provenance of the data
matter: a dataset is either a raw source array of shape `(rows, cols)` or the
result of `autoenc.transform` by a fitted autoencoder with `n_components`
hidden units. -/

inductive Data where
  | src (rows cols : Nat)
  | transformed (n_components : Nat) (input : Data)
  deriving Repr, DecidableEq

/-- Column count `shape[1]` of a dataset: the raw column count, or, after an encoder with
`k` components, `k`. -/
def Data.cols : Data → Nat
  | .src _ c => c
  | .transformed k _ => k

/-! ### The denoising-autoencoder collaborator -/

/-- Modelled from the spec: the external collaborator `SingleLayerAutoencoder`
(`models/autoencoder_models/denoising_autoencoder.py`, not under src/):
one denoising autoencoder with `n_components` hidden units and per-layer
options; `build(feature_dim)` records the input width, `fit` trains on the
given data (we record which training set it was fit on),
`transform(data)` encodes data, `get_parameters()` returns the learned
encoding weight matrix (shape `[n_inputs, n_components]`) and bias vector
(shape `[n_components]`). -/
structure DenoisingAutoencoder where
  n_components : Nat
  enc_act_func : String
  dec_act_func : String
  loss_func : String
  opt : String
  learning_rate : ℚ
  num_epochs : Nat
  batch_size : Nat
  n_inputs : Option Nat := none
  fitTrain : Option Data := none
  deriving Repr, DecidableEq

/-- Modelled from the spec: `autoenc.build_model(n_inputs)` sizes the
autoencoder to the given input dimensionality. -/
def DenoisingAutoencoder.build_model (ae : DenoisingAutoencoder) (n_inputs : Nat) :
    DenoisingAutoencoder :=
  { ae with n_inputs := some n_inputs }

/-- Modelled from the spec: `autoenc.fit(train_set, validation_set)` trains the
autoencoder; the embedding records the training set the parameters come from. -/
def DenoisingAutoencoder.fit (ae : DenoisingAutoencoder) (train_set : Data)
    (_validation_set : Data) : DenoisingAutoencoder :=
  { ae with fitTrain := some train_set }

/-- Learned encoding weight matrix: shape `rows × cols`, plus the provenance of
the training set it was fit on. -/
structure WeightMatrix where
  rows : Nat
  cols : Nat
  fitOn : Option Data
  deriving Repr, DecidableEq

/-- Learned encoding bias vector: length `len`, plus provenance. -/
structure BiasVector where
  len : Nat
  fitOn : Option Data
  deriving Repr, DecidableEq

/-- Modelled from the spec: `autoenc.get_model_parameters()` returns
`{enc_w, enc_b}` with `enc_w : [n_inputs, n_components]`,
`enc_b : [n_components]`. -/
def DenoisingAutoencoder.get_model_parameters (ae : DenoisingAutoencoder) :
    WeightMatrix × BiasVector :=
  ({ rows := ae.n_inputs.getD 0, cols := ae.n_components, fitOn := ae.fitTrain },
   { len := ae.n_components, fitOn := ae.fitTrain })

/-- Modelled from the spec: `autoenc.transform(data)` encodes `data` through
the (fitted) encoder, producing an array with `n_components` columns. -/
def DenoisingAutoencoder.transform (ae : DenoisingAutoencoder) (d : Data) : Data :=
  .transformed ae.n_components d

/-! ### Constructor (`StackedDenoisingAutoencoder.__init__`) -/

/-- Arguments of `StackedDenoisingAutoencoder.__init__` that the claims are
about; defaults are those of the Python signature. -/
structure SDAEConfig where
  layers : List Nat
  enc_act_func : List String := ["tanh"]
  dec_act_func : List String := ["none"]
  loss_func : List String := ["mean_squared"]
  num_epochs : List Nat := [10]
  batch_size : List Nat := [10]
  opt : List String := ["gradient_descent"]
  learning_rate : List ℚ := [1/100]
  momentum : ℚ := 1/2
  dropout : ℚ := 1
  finetune_act_func : String := "relu"
  finetune_num_epochs : Nat := 10
  finetune_batch_size : Nat := 20
  do_pretrain : Bool := true
  deriving Repr, DecidableEq

/-- One iteration of the constructor loop (source lines 79-86): it indexes
`enc_act_func[l]`, `dec_act_func[l]`, `loss_func[l]`, `opt[l]`,
`learning_rate[l]`, `num_epochs[l]`, `batch_size[l]`; an out-of-range index
raises `IndexError`, embedded as `none`. -/
def mkAutoencoder (cfg : SDAEConfig) (l : Nat) (layer : Nat) :
    Option DenoisingAutoencoder := do
  let e ← cfg.enc_act_func[l]?
  let d ← cfg.dec_act_func[l]?
  let lf ← cfg.loss_func[l]?
  let o ← cfg.opt[l]?
  let lr ← cfg.learning_rate[l]?
  let ne ← cfg.num_epochs[l]?
  let bs ← cfg.batch_size[l]?
  pure { n_components := layer, enc_act_func := e, dec_act_func := d,
         loss_func := lf, opt := o, learning_rate := lr,
         num_epochs := ne, batch_size := bs }

/-- The constructor loop `for l, layer in enumerate(layers)`, building one
`DenoisingAutoencoder` per configured layer; the first `IndexError`
aborts construction. -/
def buildAutoencoders (cfg : SDAEConfig) : Nat → List Nat →
    Option (List DenoisingAutoencoder)
  | _, [] => some []
  | l, layer :: rest => do
      let ae ← mkAutoencoder cfg l layer
      let aes ← buildAutoencoders cfg (l + 1) rest
      pure (ae :: aes)

/-- Mutable attribute state of a `StackedDenoisingAutoencoder` instance (the
fields the claims are about).  `tfGraphOps` counts the ops currently in
TensorFlow's process-global default graph (`ops.reset_default_graph()`
empties it). -/
structure SDAEState where
  layers : List Nat
  do_pretrain : Bool
  finetune_act_func : String
  dropout : ℚ
  finetune_num_epochs : Nat
  finetune_batch_size : Nat
  encoding_w_ : List WeightMatrix
  encoding_b_ : List BiasVector
  autoencoders : List DenoisingAutoencoder
  layer_nodes : List TFNode
  tfGraphOps : Nat
  deriving Repr

/-- Constructor `StackedDenoisingAutoencoder.__init__`: stores the configuration, starts
with empty `encoding_w_`, `encoding_b_`, `layer_nodes`, and runs the
autoencoder-construction loop; `none` is a raised `IndexError`. -/
def init (cfg : SDAEConfig) : Option SDAEState := do
  let aes ← buildAutoencoders cfg 0 cfg.layers
  pure { layers := cfg.layers, do_pretrain := cfg.do_pretrain,
         finetune_act_func := cfg.finetune_act_func, dropout := cfg.dropout,
         finetune_num_epochs := cfg.finetune_num_epochs,
         finetune_batch_size := cfg.finetune_batch_size,
         encoding_w_ := [], encoding_b_ := [], autoencoders := aes,
         layer_nodes := [], tfGraphOps := 0 }

/-! ### Batching (`utilities.gen_batches`) -/

/-- Modelled from the spec: `utilities.gen_batches(data, batch_size)`
(`utils/utilities.py`, not under src/): divide `data` into consecutive
batches of size `batch_size`; the last batch may be shorter.  A
non-positive step is not meaningful in the source (Python `range` with
step 0 raises), so batch size `0` yields no batches here. -/
def gen_batches {α : Type} : List α → Nat → List (List α)
  | _, 0 => []
  | [], _ + 1 => []
  | x :: xs, b + 1 =>
      List.take (b + 1) (x :: xs) :: gen_batches (List.drop (b + 1) (x :: xs)) (b + 1)
termination_by data _ => data.length
decreasing_by simp [List.length_drop]; omega

/-! ### Unsupervised pretraining (`pretrain`, `_pretrain_autoencoder_and_gen_feed`) -/

/-- Result of the pretraining loop: the (mutated) autoencoders, the instance
state, and the current encoded train/validation data. -/
structure PretrainResult where
  autoencoders : List DenoisingAutoencoder
  state : SDAEState
  next_train : Data
  next_valid : Data
  deriving Repr

/-- Embedding of `_pretrain_autoencoder_and_gen_feed` (source lines 108-128): build the
autoencoder to `train_set.shape[1]`, fit it on the current train/validation
data, append its learned weight matrix and bias vector to `encoding_w_` /
`encoding_b_`, and encode both sets for the next layer.  Building and
fitting add ops to TensorFlow's default graph (counted in `tfGraphOps`). -/
def pretrainAutoencoderAndGenFeed (st : SDAEState) (autoenc : DenoisingAutoencoder)
    (train_set validation_set : Data) :
    DenoisingAutoencoder × SDAEState × Data × Data :=
  let autoenc := autoenc.build_model train_set.cols
  let autoenc := autoenc.fit train_set validation_set
  let params := autoenc.get_model_parameters
  let st := { st with encoding_w_ := st.encoding_w_ ++ [params.1],
                      encoding_b_ := st.encoding_b_ ++ [params.2],
                      tfGraphOps := st.tfGraphOps + 1 }
  let next_train := autoenc.transform train_set
  let next_valid := autoenc.transform validation_set
  (autoenc, st, next_train, next_valid)

/-- Graph reset `tf.reset_default_graph()` between successive autoencoders (source
line 104): empties the process-global default graph. -/
def resetDefaultGraph (st : SDAEState) : SDAEState :=
  { st with tfGraphOps := 0 }

/-- The loop body of `pretrain` (source lines 99-104), iterating over
`self.autoencoders` in order. -/
def pretrainLoop : SDAEState → List DenoisingAutoencoder → Data → Data → PretrainResult
  | st, [], train, valid =>
      { autoencoders := [], state := st, next_train := train, next_valid := valid }
  | st, autoenc :: rest, train, valid =>
      let step := pretrainAutoencoderAndGenFeed st autoenc train valid
      let st := resetDefaultGraph step.2.1
      let r := pretrainLoop st rest step.2.2.1 step.2.2.2
      { r with autoencoders := step.1 :: r.autoencoders }

/-- Embedding of `pretrain(train_set, validation_set)` (source lines 88-106): greedy
layer-wise pretraining; returns the deepest layer's encoding of the train
and validation sets. -/
def pretrain (st : SDAEState) (train_set validation_set : Data) :
    SDAEState × Data × Data :=
  let r := pretrainLoop st st.autoencoders train_set validation_set
  ({ r.state with autoencoders := r.autoencoders }, r.next_train, r.next_valid)

/-- Encoding a dataset through a stack of encoders with the given hidden
widths, in order (the intended pipeline of `pretrain`). -/
def encStack (widths : List Nat) (d : Data) : Data :=
  widths.foldl (fun d k => Data.transformed k d) d

/-! ### Fine-tune graph: encoding layers (`_create_encoding_layers`) -/

/-- One iteration of the loop in `_create_encoding_layers` (source lines
321-342): `y_act = tf.matmul(next_train, encoding_w_[l]) + encoding_b_[l]`,
then the activation dispatch — an unrecognized activation name falls to the
`else` branch, making `layer_y` Python `None` (`none` here) — then
`next_train = tf.nn.dropout(layer_y, keep_prob)`. -/
def encodingLayerStep (finetune_act_func : String) (l : Nat) (next_train : TFNode) :
    TFNode :=
  let y_act := TFNode.add (TFNode.matmul next_train (TFNode.encW l)) (TFNode.encB l)
  let layer_y : Option TFNode :=
    if finetune_act_func = "sigmoid" then some (TFNode.sigmoid y_act)
    else if finetune_act_func = "tanh" then some (TFNode.tanh y_act)
    else if finetune_act_func = "relu" then some (TFNode.relu y_act)
    else none
  TFNode.dropout layer_y TFNode.keepProb

/-- The loop of `_create_encoding_layers`, from layer index `l` over `n`
remaining layers: returns the final `next_train` node and the appended
`layer_nodes`. -/
def encodingLayersAux (finetune_act_func : String) (next_train : TFNode) :
    Nat → Nat → TFNode × List TFNode
  | _, 0 => (next_train, [])
  | l, n + 1 =>
      let next := encodingLayerStep finetune_act_func l next_train
      let r := encodingLayersAux finetune_act_func next (l + 1) n
      (r.1, next :: r.2)

/-- Embedding of `_create_encoding_layers` (source lines 312-344): starts from the input
placeholder, resets `layer_nodes` to `[]`, and runs the per-layer loop. -/
def createEncodingLayers (finetune_act_func : String) (numLayers : Nat) :
    TFNode × List TFNode :=
  encodingLayersAux finetune_act_func TFNode.inputData 0 numLayers

/-- Embedding of `_create_softmax_layer` (source lines 346-359): the logits node
`softmax_out = tf.matmul(last_layer, softmax_W) + softmax_b`, appended to
`layer_nodes`. -/
def createSoftmaxLayer (last_layer : TFNode) : TFNode :=
  TFNode.add (TFNode.matmul last_layer TFNode.smW) TFNode.smB

/-- The part of the `build_model` graph the claims are about: the recorded
`layer_nodes` and the logits node `softmax_out`. -/
structure BuiltGraph where
  layer_nodes : List TFNode
  softmax_out : TFNode
  deriving Repr

/-- Embedding of the `build_model(n_features, n_classes)` graph wiring (source lines 237-257):
`_create_encoding_layers` followed by `_create_softmax_layer`; afterwards
`layer_nodes` holds each encoding layer's post-dropout output followed by
the logits. -/
def buildGraph (finetune_act_func : String) (numLayers : Nat) : BuiltGraph :=
  let r := createEncodingLayers finetune_act_func numLayers
  let sm := createSoftmaxLayer r.1
  { layer_nodes := r.2 ++ [sm], softmax_out := sm }

/-! ### Fine-tune variables (`_create_variables`) -/

/-- Initializer of a created `tf.Variable`: a truncated-normal draw of the
given shape and stddev, a constant fill, or a wrap of a pretrained value. -/
inductive VarInit where
  | truncated_normal (shape : List Nat) (stddev : ℚ)
  | constantFill (value : ℚ) (shape : List Nat)
  | fromPretrainedW (w : WeightMatrix)
  | fromPretrainedB (b : BiasVector)
  deriving Repr, DecidableEq

/-- Embedding of `_create_variables_no_pretrain` (source lines 283-300): reset the
parameter lists and create, per layer `l`, a truncated-normal weight
(stddev 0.01) of shape `[n_features, layers[0]]` for `l = 0` and
`[layers[l-1], layers[l]]` otherwise, and a constant-0.01 bias of shape
`[layers[l]]`.  (The source appends both in a single loop; here the two
lists are produced by two maps over the same index range.) -/
def createVariablesNoPretrain (layers : List Nat) (n_features : Nat) :
    List VarInit × List VarInit :=
  ((List.range layers.length).map fun l =>
      if l = 0 then
        VarInit.truncated_normal [n_features, layers.getD l 0] (1/100)
      else
        VarInit.truncated_normal [layers.getD (l - 1) 0, layers.getD l 0] (1/100),
   (List.range layers.length).map fun l =>
      VarInit.constantFill (1/100) [layers.getD l 0])

/-- Embedding of `_create_variables_pretrain` (source lines 302-310): wrap each stored
pretrained parameter `encoding_w_[l]` / `encoding_b_[l]` as a variable; an
out-of-range index raises `IndexError` (`none`). -/
def createVariablesPretrain (encoding_w : List WeightMatrix)
    (encoding_b : List BiasVector) (layers : List Nat) :
    Option (List VarInit × List VarInit) := do
  let ws ← (List.range layers.length).mapM fun l => do
    let w ← encoding_w[l]?
    pure (VarInit.fromPretrainedW w)
  let bs ← (List.range layers.length).mapM fun l => do
    let b ← encoding_b[l]?
    pure (VarInit.fromPretrainedB b)
  pure (ws, bs)

/-- Embedding of `_create_variables` (source lines 271-281): dispatch on `do_pretrain`. -/
def createVariables (do_pretrain : Bool) (encoding_w : List WeightMatrix)
    (encoding_b : List BiasVector) (layers : List Nat) (n_features : Nat) :
    Option (List VarInit × List VarInit) :=
  if do_pretrain then
    createVariablesPretrain encoding_w encoding_b layers
  else
    some (createVariablesNoPretrain layers n_features)

/-! ### Joint shuffle of the paired training data (`_train_model`, lines 160-164)

`shuff = zip(train_set, train_labels)` builds the list of (sample, label)
pairs; `np.random.shuffle(shuff)` permutes that list in place.  An in-place
shuffle realizes some permutation `σ` of the positions. -/

/-- The effect of `np.random.shuffle` on a list, for the permutation `σ` the
shuffle happens to draw: position `i` of the result holds the element that
was at position `σ i`. -/
def jointShuffle {α : Type} (pairs : List α) (σ : Equiv.Perm (Fin pairs.length)) :
    List α :=
  List.ofFn fun i => pairs.get (σ i)

/-! ### Numeric evaluation of the graph

Matrices over `ℚ`; the real-valued activations `tf.nn.sigmoid` and
`tf.nn.tanh` are abstracted as environment-supplied functions.  `tf.nn.dropout`
draws, per element, a uniform value `u ∈ [0, 1)` and computes
`x / keep_prob * floor(keep_prob + u)`; the uniform draws are supplied by the
environment as a function of (dropout-node counter, row, column). -/

abbrev Mat := List (List ℚ)

def dotProd (u v : List ℚ) : ℚ :=
  (List.zipWith (fun a b => a * b) u v).sum

/-- Column `j` of a matrix. -/
def colAt (m : Mat) (j : Nat) : List ℚ :=
  m.map fun row => row.getD j 0

def numCols (m : Mat) : Nat :=
  (m.headD []).length

/-- Matrix product `tf.matmul`. -/
def matMul (a b : Mat) : Mat :=
  a.map fun row => (List.range (numCols b)).map fun j => dotProd row (colAt b j)

/-- Addition of tensors: a single-row right operand (a bias) broadcasts over the
rows of the left operand, otherwise elementwise. -/
def matAdd (a b : Mat) : Mat :=
  match b with
  | [brow] => a.map fun row => List.zipWith (fun x y => x + y) row brow
  | _ => List.zipWith (fun r s => List.zipWith (fun x y => x + y) r s) a b

def matMap (f : ℚ → ℚ) (a : Mat) : Mat :=
  a.map fun row => row.map f

/-- One row of `tf.nn.dropout`: element at column offset `j` is scaled by
`1 / keep_prob` and multiplied by the binary value `floor(keep_prob + u j)`
built from its own uniform draw `u j ∈ [0, 1)`. -/
def dropoutRow (keep_prob : ℚ) (u : Nat → ℚ) : List ℚ → Nat → List ℚ
  | [], _ => []
  | v :: vs, j => v / keep_prob * ((⌊keep_prob + u j⌋ : ℤ) : ℚ) :: dropoutRow keep_prob u vs (j + 1)

/-- Rows of `tf.nn.dropout`, row index threaded through `i`. -/
def dropoutRows (keep_prob : ℚ) (u : Nat → Nat → ℚ) : Mat → Nat → Mat
  | [], _ => []
  | row :: rows, i => dropoutRow keep_prob (u i) row 0 :: dropoutRows keep_prob u rows (i + 1)

/-- Full `tf.nn.dropout(x, keep_prob)` with the uniform draws `u`:
`x / keep_prob * floor(keep_prob + u)` elementwise. -/
def dropoutMat (x : Mat) (keep_prob : ℚ) (u : Nat → Nat → ℚ) : Mat :=
  dropoutRows keep_prob u x 0

/-- The scalar held by a `1 × 1` tensor (the evaluated `keep_prob` feed). -/
def scalarOf (m : Mat) : ℚ :=
  (m.headD []).headD 0

/-- Evaluation environment: the placeholder feeds, the restored variable
values, the real-valued activation functions, and the dropout randomness. -/
structure EvalEnv where
  input_data : Mat
  input_labels : Mat
  keep_prob : ℚ
  encWv : Nat → Mat
  encBv : Nat → List ℚ
  smWv : Mat
  smBv : List ℚ
  sigmoidF : ℚ → ℚ
  tanhF : ℚ → ℚ
  rand : Nat → Nat → Nat → ℚ

/-- Evaluator for graph nodes.  The `Nat` is the counter of dropout nodes
evaluated so far (each dropout node consumes one fresh batch of uniform
draws `env.rand c`).  A dropout whose input is the null node (Python
`None`) has no defined value; it evaluates to the empty tensor, still
consuming its randomness. -/
def evalNode (env : EvalEnv) : TFNode → Nat → Mat × Nat
  | .inputData, c => (env.input_data, c)
  | .inputLabels, c => (env.input_labels, c)
  | .keepProb, c => ([[env.keep_prob]], c)
  | .encW l, c => (env.encWv l, c)
  | .encB l, c => ([env.encBv l], c)
  | .smW, c => (env.smWv, c)
  | .smB, c => ([env.smBv], c)
  | .matmul a b, c =>
      let ra := evalNode env a c
      let rb := evalNode env b ra.2
      (matMul ra.1 rb.1, rb.2)
  | .add a b, c =>
      let ra := evalNode env a c
      let rb := evalNode env b ra.2
      (matAdd ra.1 rb.1, rb.2)
  | .sigmoid x, c =>
      let r := evalNode env x c
      (matMap env.sigmoidF r.1, r.2)
  | .tanh x, c =>
      let r := evalNode env x c
      (matMap env.tanhF r.1, r.2)
  | .relu x, c =>
      let r := evalNode env x c
      (matMap (fun q => max 0 q) r.1, r.2)
  | .dropout none k, c =>
      let rk := evalNode env k c
      ([], rk.2 + 1)
  | .dropout (some x) k, c =>
      let rx := evalNode env x c
      let rk := evalNode env k rx.2
      (dropoutMat rx.1 (scalarOf rk.1) (env.rand rk.2), rk.2 + 1)

/-- Row argmax `tf.argmax`: the index of the largest entry (first one on ties). -/
def argmaxRow (row : List ℚ) : Nat :=
  (row.enum.foldl (fun best p => if p.2 > best.2 then p else best)
    (0, row.headD 0)).1

/-- Embedding of `_create_test_node` (source lines 361-371): predictions are the per-row
argmax of the logits, accuracy is the mean of the 0/1 agreement with the
per-row argmax of the labels. -/
def accuracyValue (logits labels : Mat) : ℚ :=
  let preds := logits.map argmaxRow
  let trues := labels.map argmaxRow
  let correct := List.zipWith (fun p t => if p = t then (1 : ℚ) else 0) preds trues
  correct.sum / correct.length

/-- The accuracy node evaluated against an environment. -/
def evalAccuracy (env : EvalEnv) (g : BuiltGraph) : ℚ :=
  accuracyValue (evalNode env g.softmax_out 0).1 env.input_labels

/-- The persisted checkpoint contents restored by `tf_saver.restore`: all
encoding weights and biases and the softmax parameters, by value. -/
structure TrainedModel where
  encWv : Nat → Mat
  encBv : Nat → List ℚ
  smWv : Mat
  smBv : List ℚ

/-- The evaluation environment of a session that restored `m` and feeds the
given placeholders. -/
def mkEnv (m : TrainedModel) (sigmoidF tanhF : ℚ → ℚ)
    (rand : Nat → Nat → Nat → ℚ) (input_data input_labels : Mat)
    (keep_prob : ℚ) : EvalEnv :=
  { input_data := input_data, input_labels := input_labels,
    keep_prob := keep_prob, encWv := m.encWv, encBv := m.encBv,
    smWv := m.smWv, smBv := m.smBv, sigmoidF := sigmoidF, tanhF := tanhF,
    rand := rand }

/-- Embedding of `compute_accuracy(test_set, test_labels)` (source lines 223-235): open a
fresh session, restore the persisted model, and evaluate the accuracy node
with `keep_prob: 1`.  `rand` is whatever dropout randomness that session
would draw. -/
def compute_accuracy (g : BuiltGraph) (sigmoidF tanhF : ℚ → ℚ)
    (rand : Nat → Nat → Nat → ℚ) (persisted : TrainedModel)
    (test_set test_labels : Mat) : ℚ :=
  evalAccuracy (mkEnv persisted sigmoidF tanhF rand test_set test_labels 1) g

/-- Embedding of `get_layers_output(dataset)` (source lines 195-209): restore the persisted
model and evaluate every recorded layer node with `keep_prob: 1` (no labels
are fed). -/
def get_layers_output (g : BuiltGraph) (sigmoidF tanhF : ℚ → ℚ)
    (rand : Nat → Nat → Nat → ℚ) (persisted : TrainedModel)
    (dataset : Mat) : List Mat :=
  g.layer_nodes.map fun l =>
    (evalNode (mkEnv persisted sigmoidF tanhF rand dataset [] 1) l 0).1

/-! ### Session runs during fine-tuning (`_train_model`,
`_run_validation_error_and_summaries`)

The mutable state of the fine-tuning session is the current value of the
trainable variables (a `TrainedModel`).  A `session.run` fetch either runs
the optimizer step (`train_step`, which updates the variables by one
gradient step — abstracted as an arbitrary update function) or evaluates a
pure node (`accuracy`, `merged_summaries`). -/

structure Feed where
  input_data : Mat
  input_labels : Mat
  keep_prob : ℚ

inductive Fetch where
  | train_step
  | accuracy
  | merged_summaries
  deriving Repr, DecidableEq

inductive FetchOut where
  | opOut
  | scalar (q : ℚ)
  | summaryData (q : ℚ)
  deriving Repr

/-- Run one fetch: only `train_step` updates the variables (by the abstract
optimizer step `optStep`); `accuracy` and `merged_summaries` evaluate pure
graph nodes. -/
def runFetch (g : BuiltGraph) (sigmoidF tanhF : ℚ → ℚ)
    (rand : Nat → Nat → Nat → ℚ) (optStep : TrainedModel → Feed → TrainedModel)
    (m : TrainedModel) (feed : Feed) : Fetch → TrainedModel × FetchOut
  | .train_step => (optStep m feed, .opOut)
  | .accuracy =>
      (m, .scalar (evalAccuracy
        (mkEnv m sigmoidF tanhF rand feed.input_data feed.input_labels feed.keep_prob) g))
  | .merged_summaries =>
      (m, .summaryData (evalAccuracy
        (mkEnv m sigmoidF tanhF rand feed.input_data feed.input_labels feed.keep_prob) g))

/-- Session run `tf_session.run(fetches, feed_dict)`: run the fetches in order, threading
the variable state. -/
def sessionRun (g : BuiltGraph) (sigmoidF tanhF : ℚ → ℚ)
    (rand : Nat → Nat → Nat → ℚ) (optStep : TrainedModel → Feed → TrainedModel)
    (m : TrainedModel) (feed : Feed) : List Fetch → TrainedModel × List FetchOut
  | [] => (m, [])
  | f :: fs =>
      let r := runFetch g sigmoidF tanhF rand optStep m feed f
      let rs := sessionRun g sigmoidF tanhF rand optStep r.1 feed fs
      (rs.1, r.2 :: rs.2)

/-- Embedding of `_run_validation_error_and_summaries` (source lines 176-193):
`session.run([merged_summaries, accuracy], feed_dict)` with
`keep_prob: 1`, then writes the summary and possibly prints — neither of
which touches the variables. -/
def runValidationErrorAndSummaries (g : BuiltGraph) (sigmoidF tanhF : ℚ → ℚ)
    (rand : Nat → Nat → Nat → ℚ) (optStep : TrainedModel → Feed → TrainedModel)
    (m : TrainedModel) (validation_set validation_labels : Mat) :
    TrainedModel × List FetchOut :=
  sessionRun g sigmoidF tanhF rand optStep m
    { input_data := validation_set, input_labels := validation_labels, keep_prob := 1 }
    [Fetch.merged_summaries, Fetch.accuracy]

/-! ### Auxiliary specification-side definitions used by the theorems -/

/-- Iterated pretraining: `k` successive `pretrain` calls on the same instance, each passed the same
original `train_set` / `validation_set`. -/
def pretrainIter (train_set validation_set : Data) : SDAEState → Nat → SDAEState
  | st, 0 => st
  | st, k + 1 =>
      pretrainIter train_set validation_set (pretrain st train_set validation_set).1 k

/-- The weight matrices the pretraining loop appends, starting from current
data `t`: layer `l` is fit on the data encoded by layers `0..l-1` and has
shape `[current input width, n_components]`. -/
def pretrainWs (t : Data) : List DenoisingAutoencoder → List WeightMatrix
  | [] => []
  | ae :: rest =>
      { rows := t.cols, cols := ae.n_components, fitOn := some t } ::
        pretrainWs (Data.transformed ae.n_components t) rest

/-- The bias vectors the pretraining loop appends. -/
def pretrainBs (t : Data) : List DenoisingAutoencoder → List BiasVector
  | [] => []
  | ae :: rest =>
      { len := ae.n_components, fitOn := some t } ::
        pretrainBs (Data.transformed ae.n_components t) rest

/-- Whether a node is literally the `keep_prob` placeholder. -/
def isKeepProb : TFNode → Bool
  | .keepProb => true
  | _ => false

/-- Every dropout node in the tree takes the `keep_prob` placeholder as its
keep argument (true of every graph `build_model` constructs). -/
def dropoutKeepOk : TFNode → Bool
  | .matmul a b => dropoutKeepOk a && dropoutKeepOk b
  | .add a b => dropoutKeepOk a && dropoutKeepOk b
  | .sigmoid x => dropoutKeepOk x
  | .tanh x => dropoutKeepOk x
  | .relu x => dropoutKeepOk x
  | .dropout none k => isKeepProb k
  | .dropout (some x) k => dropoutKeepOk x && isKeepProb k
  | _ => true

/-- The uniform dropout draws of a session all lie in `[0, 1)`. -/
def randBounded (rand : Nat → Nat → Nat → ℚ) : Prop :=
  ∀ c i j, 0 ≤ rand c i j ∧ rand c i j < 1

/-- All seven per-layer option lists of the configuration can be indexed at
position `l`. -/
def mkOk (cfg : SDAEConfig) (l : Nat) : Prop :=
  l < cfg.enc_act_func.length ∧ l < cfg.dec_act_func.length ∧
  l < cfg.loss_func.length ∧ l < cfg.opt.length ∧
  l < cfg.learning_rate.length ∧ l < cfg.num_epochs.length ∧
  l < cfg.batch_size.length

/-! ### Concrete instances used by counterexamples and witnesses -/

/-- A configuration whose per-layer option lists all have length 2 while
`layers` has length 1: every list length disagrees with the layer count. -/
def cfgListsTooLong : SDAEConfig :=
  { layers := [5],
    enc_act_func := ["tanh", "tanh"], dec_act_func := ["none", "none"],
    loss_func := ["mean_squared", "mean_squared"],
    num_epochs := [10, 10], batch_size := [10, 10],
    opt := ["gradient_descent", "gradient_descent"],
    learning_rate := [1/100, 1/100] }

/-- A two-layer configuration with matching list lengths. -/
def cfgTwoLayers : SDAEConfig :=
  { layers := [3, 2],
    enc_act_func := ["tanh", "tanh"], dec_act_func := ["none", "none"],
    loss_func := ["mean_squared", "mean_squared"],
    num_epochs := [10, 10], batch_size := [10, 10],
    opt := ["gradient_descent", "gradient_descent"],
    learning_rate := [1/100, 1/100] }

/-- A concrete denoising autoencoder with 3 hidden units. -/
def exampleAE : DenoisingAutoencoder :=
  { n_components := 3, enc_act_func := "tanh", dec_act_func := "none",
    loss_func := "mean_squared", opt := "gradient_descent",
    learning_rate := 1/100, num_epochs := 10, batch_size := 10 }

/-- A freshly constructed two-layer instance state (layers `[3, 2]`). -/
def exampleState : SDAEState :=
  { layers := [3, 2], do_pretrain := true, finetune_act_func := "relu",
    dropout := 1, finetune_num_epochs := 10, finetune_batch_size := 20,
    encoding_w_ := [], encoding_b_ := [],
    autoencoders := [exampleAE, { exampleAE with n_components := 2 }],
    layer_nodes := [], tfGraphOps := 0 }

/-- A concrete persisted model for a 1-layer, 1-feature, 1-class network. -/
def exampleModel : TrainedModel :=
  { encWv := fun _ => [[1]], encBv := fun _ => [0], smWv := [[1]], smBv := [0] }

/-- Dropout randomness that always draws `0`. -/
def randZero : Nat → Nat → Nat → ℚ := fun _ _ _ => 0

/-- Dropout randomness that always draws `1/2`. -/
def randHalf : Nat → Nat → Nat → ℚ := fun _ _ _ => 1/2

/-! ## Lemmas about `gen_batches` -/

theorem gen_batches_nil {α : Type} (b : Nat) : gen_batches ([] : List α) b = [] := by
  cases b <;> simp [gen_batches]

theorem gen_batches_cons {α : Type} (x : α) (xs : List α) (b : Nat) :
    gen_batches (x :: xs) (b + 1) =
      List.take (b + 1) (x :: xs) ::
        gen_batches (List.drop (b + 1) (x :: xs)) (b + 1) := by
  rw [gen_batches]

theorem gen_batches_eq_nil_iff {α : Type} (xs : List α) (b : Nat) :
    gen_batches xs (b + 1) = [] ↔ xs = [] := by
  cases xs with
  | nil => simp [gen_batches_nil]
  | cons x l => simp [gen_batches_cons]

theorem gen_batches_join_aux {α : Type} (b : Nat) :
    ∀ n (xs : List α), xs.length ≤ n → (gen_batches xs (b + 1)).flatten = xs := by
  intro n
  induction n with
  | zero =>
      intro xs h
      have hx : xs = [] := List.length_eq_zero.mp (Nat.le_zero.mp h)
      subst hx
      simp [gen_batches_nil]
  | succ n ih =>
      intro xs h
      cases xs with
      | nil => simp [gen_batches_nil]
      | cons x l =>
          rw [gen_batches_cons]
          simp only [List.flatten_cons]
          rw [ih (List.drop (b + 1) (x :: l)) (by simp [List.length_drop] at h ⊢; omega)]
          exact List.take_append_drop (b + 1) (x :: l)

theorem gen_batches_length_aux {α : Type} (b : Nat) :
    ∀ n (xs : List α), xs.length ≤ n →
      (gen_batches xs (b + 1)).length = (xs.length + b) / (b + 1) := by
  intro n
  induction n with
  | zero =>
      intro xs h
      have hx : xs = [] := List.length_eq_zero.mp (Nat.le_zero.mp h)
      subst hx
      simp [gen_batches_nil, Nat.div_eq_of_lt (show b < b + 1 by omega)]
  | succ n ih =>
      intro xs h
      cases xs with
      | nil => simp [gen_batches_nil, Nat.div_eq_of_lt (show b < b + 1 by omega)]
      | cons x l =>
          rw [gen_batches_cons]
          simp only [List.length_cons]
          rw [ih (List.drop (b + 1) (x :: l)) (by simp [List.length_drop] at h ⊢; omega)]
          simp only [List.length_drop, List.length_cons]
          rw [show l.length + 1 + b = l.length + (b + 1) by omega,
              Nat.add_div_right _ (Nat.succ_pos b)]
          congr 1
          rcases Nat.le_total (l.length + 1) (b + 1) with hle | hge
          · rw [show l.length + 1 - (b + 1) = 0 by omega]
            rw [Nat.div_eq_of_lt (by omega), Nat.div_eq_of_lt (by omega)]
          · rw [show l.length + 1 - (b + 1) + b = l.length by omega]

theorem gen_batches_size_le {α : Type} (b : Nat) :
    ∀ n (xs : List α), xs.length ≤ n →
      ∀ batch ∈ gen_batches xs (b + 1), batch.length ≤ b + 1 := by
  intro n
  induction n with
  | zero =>
      intro xs h batch hb
      have hx : xs = [] := List.length_eq_zero.mp (Nat.le_zero.mp h)
      subst hx
      simp [gen_batches_nil] at hb
  | succ n ih =>
      intro xs h batch hb
      cases xs with
      | nil => simp [gen_batches_nil] at hb
      | cons x l =>
          rw [gen_batches_cons] at hb
          rcases List.mem_cons.mp hb with rfl | hmem
          · simp only [List.length_take]
            omega
          · exact ih (List.drop (b + 1) (x :: l))
              (by simp [List.length_drop] at h ⊢; omega) batch hmem

theorem gen_batches_full_aux {α : Type} (b : Nat) :
    ∀ n (xs : List α), xs.length ≤ n →
      ∀ i (h : i + 1 < (gen_batches xs (b + 1)).length),
        ((gen_batches xs (b + 1)).get ⟨i, Nat.lt_of_succ_lt h⟩).length = b + 1 := by
  intro n
  induction n with
  | zero =>
      intro xs hx i h
      have hxs : xs = [] := List.length_eq_zero.mp (Nat.le_zero.mp hx)
      subst hxs
      rw [gen_batches_nil] at h
      simp at h
  | succ n ih =>
      intro xs hx i h
      cases xs with
      | nil => rw [gen_batches_nil] at h; simp at h
      | cons x l =>
          cases i with
          | zero =>
              have h1 : 1 < (gen_batches (x :: l) (b + 1)).length := h
              rw [gen_batches_cons] at h1
              simp only [List.length_cons] at h1
              have hrest : List.drop (b + 1) (x :: l) ≠ [] := by
                intro heq
                rw [heq, gen_batches_nil] at h1
                simp at h1
              have hlen : b + 1 < (x :: l).length := by
                by_contra hc
                exact hrest (List.drop_eq_nil_of_le (by omega))
              have hget : (gen_batches (x :: l) (b + 1)).get
                  ⟨0, Nat.lt_of_succ_lt h⟩ = List.take (b + 1) (x :: l) := by
                simp [gen_batches_cons]
              rw [hget, List.length_take]
              simp only [List.length_cons] at hlen ⊢
              omega
          | succ j =>
              have h1 := h
              rw [gen_batches_cons] at h1
              simp only [List.length_cons] at h1
              have h2 : j + 1 <
                  (gen_batches (List.drop (b + 1) (x :: l)) (b + 1)).length := by omega
              have hrec := ih (List.drop (b + 1) (x :: l))
                (by simp [List.length_drop] at hx ⊢; omega) j h2
              have hget : (gen_batches (x :: l) (b + 1)).get
                  ⟨j + 1, Nat.lt_of_succ_lt h⟩ =
                  (gen_batches (List.drop (b + 1) (x :: l)) (b + 1)).get
                    ⟨j, Nat.lt_of_succ_lt h2⟩ := by
                simp [gen_batches_cons]
              rw [hget, hrec]

/-- Claim C8: Mini-batching a dataset of size `S` with batch size `B > 0` yields
exactly `⌈S/B⌉ = (S + B - 1) / B` batches; every batch has size at most
`B`; every batch except possibly the last has size exactly `B`; and
concatenating the batches in order recovers the dataset. -/
theorem claim_C8_gen_batches_partition {α : Type} (xs : List α) (B : Nat) (hB : 0 < B) :
    (gen_batches xs B).length = (xs.length + B - 1) / B ∧
    (∀ batch ∈ gen_batches xs B, batch.length ≤ B) ∧
    (∀ i (h : i + 1 < (gen_batches xs B).length),
      ((gen_batches xs B).get ⟨i, Nat.lt_of_succ_lt h⟩).length = B) ∧
    (gen_batches xs B).flatten = xs := by
  obtain ⟨b, rfl⟩ : ∃ b, B = b + 1 := ⟨B - 1, by omega⟩
  refine ⟨?_, ?_, ?_, ?_⟩
  · rw [gen_batches_length_aux b xs.length xs le_rfl]
    congr 1
  · exact gen_batches_size_le b xs.length xs le_rfl
  · exact gen_batches_full_aux b xs.length xs le_rfl
  · exact gen_batches_join_aux b xs.length xs le_rfl

/-- Witness for C8 at a concrete input: dataset `[1,2,3,4,5]`, batch size 2. -/
theorem claim_C8_witness :
    0 < 2 ∧
    ((gen_batches [1, 2, 3, 4, 5] 2).length = ([1, 2, 3, 4, 5].length + 2 - 1) / 2 ∧
     (∀ batch ∈ gen_batches [1, 2, 3, 4, 5] 2, batch.length ≤ 2) ∧
     (∀ i (h : i + 1 < (gen_batches [1, 2, 3, 4, 5] 2).length),
       ((gen_batches [1, 2, 3, 4, 5] 2).get ⟨i, Nat.lt_of_succ_lt h⟩).length = 2) ∧
     (gen_batches [1, 2, 3, 4, 5] 2).flatten = [1, 2, 3, 4, 5]) :=
  ⟨by norm_num, claim_C8_gen_batches_partition [1, 2, 3, 4, 5] 2 (by norm_num)⟩

/-! ## Lemmas about the constructor -/

theorem lt_length_iff_isSome_getElem {α : Type} (xs : List α) (l : Nat) :
    xs[l]?.isSome ↔ l < xs.length := by
  simp [Option.isSome_iff_ne_none, ne_eq, List.getElem?_eq_none_iff]

theorem mkAutoencoder_isSome_eq (cfg : SDAEConfig) (l layer : Nat) :
    (mkAutoencoder cfg l layer).isSome =
      (cfg.enc_act_func[l]?.isSome && cfg.dec_act_func[l]?.isSome &&
       cfg.loss_func[l]?.isSome && cfg.opt[l]?.isSome &&
       cfg.learning_rate[l]?.isSome && cfg.num_epochs[l]?.isSome &&
       cfg.batch_size[l]?.isSome) := by
  unfold mkAutoencoder
  rcases cfg.enc_act_func[l]? with _ | e <;> simp
  rcases cfg.dec_act_func[l]? with _ | d <;> simp
  rcases cfg.loss_func[l]? with _ | lf <;> simp
  rcases cfg.opt[l]? with _ | o <;> simp
  rcases cfg.learning_rate[l]? with _ | lr <;> simp
  rcases cfg.num_epochs[l]? with _ | ne <;> simp
  rcases cfg.batch_size[l]? with _ | bs <;> simp

theorem mkAutoencoder_isSome_iff (cfg : SDAEConfig) (l layer : Nat) :
    (mkAutoencoder cfg l layer).isSome ↔ mkOk cfg l := by
  rw [mkAutoencoder_isSome_eq]
  simp only [Bool.and_eq_true, lt_length_iff_isSome_getElem, mkOk]
  tauto

theorem buildAutoencoders_isSome_iff (cfg : SDAEConfig) :
    ∀ (ls : List Nat) (i : Nat),
      (buildAutoencoders cfg i ls).isSome ↔ ∀ j, j < ls.length → mkOk cfg (i + j) := by
  intro ls
  induction ls with
  | nil => intro i; simp [buildAutoencoders]
  | cons layer rest ih =>
      intro i
      constructor
      · intro h
        rcases hA : mkAutoencoder cfg i layer with _ | ae
        · rw [buildAutoencoders, hA] at h
          simp at h
        rcases hR : buildAutoencoders cfg (i + 1) rest with _ | aes
        · rw [buildAutoencoders, hA, hR] at h
          simp at h
        intro j hj
        cases j with
        | zero =>
            have := (mkAutoencoder_isSome_iff cfg i layer).mp (by rw [hA]; rfl)
            simpa using this
        | succ j' =>
            have hrec := (ih (i + 1)).mp (by rw [hR]; rfl)
            have := hrec j' (by simpa using hj)
            simpa [Nat.add_assoc, Nat.add_comm 1 j'] using this
      · intro h
        have hA : (mkAutoencoder cfg i layer).isSome := by
          rw [mkAutoencoder_isSome_iff]
          simpa using h 0 (by simp)
        have hR : (buildAutoencoders cfg (i + 1) rest).isSome := by
          rw [ih (i + 1)]
          intro j hj
          have := h (j + 1) (by simpa using hj)
          simpa [Nat.add_assoc, Nat.add_comm 1 j] using this
        rcases Option.isSome_iff_exists.mp hA with ⟨ae, hae⟩
        rcases Option.isSome_iff_exists.mp hR with ⟨aes, haes⟩
        rw [buildAutoencoders, hae, haes]
        rfl

theorem init_isSome_iff_buildAutoencoders (cfg : SDAEConfig) :
    (init cfg).isSome ↔ (buildAutoencoders cfg 0 cfg.layers).isSome := by
  unfold init
  rcases buildAutoencoders cfg 0 cfg.layers with _ | aes <;> simp

/-- Claim C3, counterexample: A configuration whose per-layer option lists all
have length 2 while `len(layers) = 1`: every list length disagrees with the
layer count, yet construction succeeds (no `IndexError` is raised), because
the constructor loop only indexes positions `0..len(layers)-1`. -/
theorem claim_C3_counterexample :
    cfgListsTooLong.enc_act_func.length ≠ cfgListsTooLong.layers.length ∧
    cfgListsTooLong.dec_act_func.length ≠ cfgListsTooLong.layers.length ∧
    cfgListsTooLong.loss_func.length ≠ cfgListsTooLong.layers.length ∧
    cfgListsTooLong.opt.length ≠ cfgListsTooLong.layers.length ∧
    cfgListsTooLong.learning_rate.length ≠ cfgListsTooLong.layers.length ∧
    cfgListsTooLong.num_epochs.length ≠ cfgListsTooLong.layers.length ∧
    cfgListsTooLong.batch_size.length ≠ cfgListsTooLong.layers.length ∧
    (init cfgListsTooLong).isSome = true := by
  refine ⟨by decide, by decide, by decide, by decide, by decide, by decide, by decide, ?_⟩
  decide

/-- Claim C3, amended: Construction raises at `__init__` time iff some
per-layer option list is *shorter* than `len(layers)` (the loop indexes
positions `0..len(layers)-1`); in particular, when every list has length
equal to `len(layers)` construction succeeds, but a list longer than
`len(layers)` does not make construction fail. -/
theorem claim_C3_init_succeeds_iff (cfg : SDAEConfig) :
    (init cfg).isSome ↔
      (cfg.layers.length ≤ cfg.enc_act_func.length ∧
       cfg.layers.length ≤ cfg.dec_act_func.length ∧
       cfg.layers.length ≤ cfg.loss_func.length ∧
       cfg.layers.length ≤ cfg.opt.length ∧
       cfg.layers.length ≤ cfg.learning_rate.length ∧
       cfg.layers.length ≤ cfg.num_epochs.length ∧
       cfg.layers.length ≤ cfg.batch_size.length) := by
  rw [init_isSome_iff_buildAutoencoders, buildAutoencoders_isSome_iff]
  simp only [Nat.zero_add, mkOk]
  constructor
  · intro h
    rcases Nat.eq_zero_or_pos cfg.layers.length with h0 | hpos
    · omega
    · have := h (cfg.layers.length - 1) (by omega)
      omega
  · intro h j hj
    omega

/-! ## Lemmas about the encoding layers and `layer_nodes` -/

theorem encodingLayersAux_length (act : String) :
    ∀ (n l : Nat) (t : TFNode), (encodingLayersAux act t l n).2.length = n := by
  intro n
  induction n with
  | zero => intro l t; rfl
  | succ n ih =>
      intro l t
      simp only [encodingLayersAux, List.length_cons]
      rw [ih]

theorem encodingLayerStep_unknown (act : String) (l : Nat) (t : TFNode)
    (h1 : act ≠ "sigmoid") (h2 : act ≠ "tanh") (h3 : act ≠ "relu") :
    encodingLayerStep act l t = TFNode.dropout none TFNode.keepProb := by
  simp only [encodingLayerStep, if_neg h1, if_neg h2, if_neg h3]

theorem encodingLayersAux_unknown (act : String)
    (h1 : act ≠ "sigmoid") (h2 : act ≠ "tanh") (h3 : act ≠ "relu") :
    ∀ (n l : Nat) (t : TFNode),
      (encodingLayersAux act t l n).2 =
        List.replicate n (TFNode.dropout none TFNode.keepProb) := by
  intro n
  induction n with
  | zero => intro l t; rfl
  | succ n ih =>
      intro l t
      simp only [encodingLayersAux, List.replicate_succ, List.cons.injEq]
      exact ⟨encodingLayerStep_unknown act l t h1 h2 h3, ih (l + 1) _⟩

/-- Claim C4: When the configured fine-tune activation function is not one of
`sigmoid`, `tanh`, `relu` (e.g. `"none"`), `_create_encoding_layers` still
completes without error, producing one layer node per configured layer, and
each of these nodes is the dropout wrapper of the null (`None`) layer — the
unrecognized activation is a deliberate no-op, not a failure. -/
theorem claim_C4_unknown_act_is_noop (act : String) (numLayers : Nat)
    (h1 : act ≠ "sigmoid") (h2 : act ≠ "tanh") (h3 : act ≠ "relu") :
    (createEncodingLayers act numLayers).2.length = numLayers ∧
    ∀ node ∈ (createEncodingLayers act numLayers).2,
      node = TFNode.dropout none TFNode.keepProb := by
  unfold createEncodingLayers
  rw [encodingLayersAux_unknown act h1 h2 h3]
  exact ⟨List.length_replicate _ _, fun node hn => List.eq_of_mem_replicate hn⟩

/-- Witness for C4 at the concrete activation `"none"` with two layers. -/
theorem claim_C4_witness :
    ("none" ≠ "sigmoid") ∧ ("none" ≠ "tanh") ∧ ("none" ≠ "relu") ∧
    ((createEncodingLayers "none" 2).2.length = 2 ∧
     ∀ node ∈ (createEncodingLayers "none" 2).2,
       node = TFNode.dropout none TFNode.keepProb) :=
  ⟨by decide, by decide, by decide,
   claim_C4_unknown_act_is_noop "none" 2 (by decide) (by decide) (by decide)⟩

/-- Claim C10: After `build_model` on a model with `L` configured hidden layers,
`layer_nodes` holds `L + 1` nodes, the last of which is the logits node
`softmax_out`; consequently `get_layers_output` returns `L + 1` arrays, the
last being the evaluation of the logits. -/
theorem claim_C10_layer_nodes_count (act : String) (L : Nat)
    (sigmoidF tanhF : ℚ → ℚ) (rand : Nat → Nat → Nat → ℚ)
    (persisted : TrainedModel) (dataset : Mat) :
    (buildGraph act L).layer_nodes.length = L + 1 ∧
    (buildGraph act L).layer_nodes.getLast? = some (buildGraph act L).softmax_out ∧
    (get_layers_output (buildGraph act L) sigmoidF tanhF rand persisted dataset).length
      = L + 1 ∧
    (get_layers_output (buildGraph act L) sigmoidF tanhF rand persisted dataset).getLast?
      = some ((evalNode (mkEnv persisted sigmoidF tanhF rand dataset [] 1)
          (buildGraph act L).softmax_out 0).1) := by
  refine ⟨?_, ?_, ?_, ?_⟩
  · simp [buildGraph, createEncodingLayers, encodingLayersAux_length]
  · simp only [buildGraph]
    exact List.getLast?_concat _
  · simp [get_layers_output, buildGraph, createEncodingLayers, encodingLayersAux_length]
  · simp only [get_layers_output, buildGraph, List.map_append, List.map_cons,
      List.map_nil]
    exact List.getLast?_concat _

/-! ## Lemmas about fine-tune variable creation -/

/-- Claim C5: With `do_pretrain = false`, `build_model`'s variable creation
succeeds with no prior `pretrain` call (whatever the current
`encoding_w_` / `encoding_b_` hold) and creates, per layer `l`, a
truncated-normal weight of stddev 0.01 with shape `[n_features, layers[0]]`
for `l = 0` and `[layers[l-1], layers[l]]` for `l > 0`, and a constant-0.01
bias of shape `[layers[l]]`. -/
theorem claim_C5_no_pretrain_variables (layers : List Nat) (n_features : Nat)
    (encoding_w : List WeightMatrix) (encoding_b : List BiasVector) :
    createVariables false encoding_w encoding_b layers n_features =
      some (createVariablesNoPretrain layers n_features) ∧
    (createVariablesNoPretrain layers n_features).1.length = layers.length ∧
    (createVariablesNoPretrain layers n_features).2.length = layers.length ∧
    ∀ l (h : l < layers.length),
      ((createVariablesNoPretrain layers n_features).1.get
          ⟨l, by simpa [createVariablesNoPretrain] using h⟩ =
        VarInit.truncated_normal
          [if l = 0 then n_features else layers.get ⟨l - 1, by omega⟩,
           layers.get ⟨l, h⟩] (1/100)) ∧
      ((createVariablesNoPretrain layers n_features).2.get
          ⟨l, by simpa [createVariablesNoPretrain] using h⟩ =
        VarInit.constantFill (1/100) [layers.get ⟨l, h⟩]) := by
  refine ⟨rfl, by simp [createVariablesNoPretrain], by simp [createVariablesNoPretrain],
    fun l h => ⟨?_, ?_⟩⟩
  · rw [List.get_eq_getElem]
    simp only [createVariablesNoPretrain, List.getElem_map, List.getElem_range]
    rcases Nat.eq_zero_or_pos l with h0 | hpos
    · subst h0
      rw [if_pos rfl, if_pos rfl, List.getD_eq_getElem layers 0 h, List.get_eq_getElem]
    · rw [if_neg (by omega), if_neg (by omega),
        List.getD_eq_getElem layers 0 h,
        List.getD_eq_getElem layers 0 (show l - 1 < layers.length by omega),
        List.get_eq_getElem, List.get_eq_getElem]
  · rw [List.get_eq_getElem]
    simp only [createVariablesNoPretrain, List.getElem_map, List.getElem_range]
    rw [List.getD_eq_getElem layers 0 h, List.get_eq_getElem]

/-- Witness for C5 at `layers = [3, 2]`, `n_features = 4`, instantiating the
per-layer conjunct at `l = 1`. -/
theorem claim_C5_witness :
    (createVariables false [] [] [3, 2] 4 = some (createVariablesNoPretrain [3, 2] 4)) ∧
    (createVariablesNoPretrain [3, 2] 4).1.length = [3, 2].length ∧
    (1 < [3, 2].length) ∧
    (createVariablesNoPretrain [3, 2] 4).1.get ⟨1, by simp [createVariablesNoPretrain]⟩ =
      VarInit.truncated_normal [3, 2] (1/100) := by
  have h := claim_C5_no_pretrain_variables [3, 2] 4 [] []
  refine ⟨h.1, h.2.1, by norm_num, ?_⟩
  have h4 := (h.2.2.2 1 (by norm_num)).1
  simpa using h4

/-! ## The validation pass does not touch trainable state -/

/-- Claim C7: `_run_validation_error_and_summaries` only fetches
`merged_summaries` and `accuracy` — it runs no optimizer step — so for
every possible optimizer update function the trainable parameters after
the validation pass are exactly the parameters before it. -/
theorem claim_C7_validation_preserves_params (g : BuiltGraph)
    (sigmoidF tanhF : ℚ → ℚ) (rand : Nat → Nat → Nat → ℚ)
    (optStep : TrainedModel → Feed → TrainedModel) (m : TrainedModel)
    (validation_set validation_labels : Mat) :
    (runValidationErrorAndSummaries g sigmoidF tanhF rand optStep m
        validation_set validation_labels).1 = m := rfl

/-! ## Joint shuffle preserves the (sample, label) pairing -/

/-- Claim C2: Whatever permutation `σ` the in-place `np.random.shuffle` of the
zipped (sample, label) list realizes, the pair located at any position `i`
after the shuffle is `(train_set[j], train_labels[j])` for one original
index `j`: the sample and the label co-located after the shuffle still
belong to the same original training example. -/
theorem claim_C2_joint_shuffle_pairing {α β : Type} (train_set : List α)
    (train_labels : List β) (hlen : train_set.length = train_labels.length)
    (σ : Equiv.Perm (Fin (train_set.zip train_labels).length))
    (i : Fin (jointShuffle (train_set.zip train_labels) σ).length) :
    ∃ (j : Fin train_set.length) (j2 : Fin train_labels.length),
      (j : Nat) = (j2 : Nat) ∧
      (jointShuffle (train_set.zip train_labels) σ).get i =
        (train_set.get j, train_labels.get j2) := by
  rcases i with ⟨iv, hi⟩
  have hzlen : (train_set.zip train_labels).length = train_set.length := by
    simp [List.length_zip, hlen]
  have hi' : iv < (train_set.zip train_labels).length := by
    simpa [jointShuffle] using hi
  have hk1 : ((σ ⟨iv, hi'⟩ : Fin _) : Nat) < train_set.length := by
    have := (σ ⟨iv, hi'⟩).isLt
    omega
  have hk2 : ((σ ⟨iv, hi'⟩ : Fin _) : Nat) < train_labels.length := by
    have := (σ ⟨iv, hi'⟩).isLt
    omega
  refine ⟨⟨σ ⟨iv, hi'⟩, hk1⟩, ⟨σ ⟨iv, hi'⟩, hk2⟩, rfl, ?_⟩
  have hshuffle : (jointShuffle (train_set.zip train_labels) σ).get ⟨iv, hi⟩ =
      (train_set.zip train_labels).get (σ ⟨iv, hi'⟩) := by
    simp only [jointShuffle, List.get_eq_getElem, List.getElem_ofFn]
  rw [hshuffle]
  simp only [List.get_eq_getElem, List.getElem_zip]

/-- Witness for C2: three samples, three labels, the identity permutation,
position 0. -/
theorem claim_C2_witness :
    ([10, 20, 30] : List ℕ).length = (["a", "b", "c"] : List String).length ∧
    ∃ (j : Fin ([10, 20, 30] : List ℕ).length)
      (j2 : Fin (["a", "b", "c"] : List String).length),
      (j : Nat) = (j2 : Nat) ∧
      (jointShuffle (([10, 20, 30] : List ℕ).zip (["a", "b", "c"] : List String))
          (Equiv.refl _)).get ⟨0, by decide⟩ =
        (([10, 20, 30] : List ℕ).get j, (["a", "b", "c"] : List String).get j2) :=
  ⟨rfl, claim_C2_joint_shuffle_pairing ([10, 20, 30] : List ℕ)
    (["a", "b", "c"] : List String) rfl (Equiv.refl _) ⟨0, by decide⟩⟩

/-! ## Lemmas about the pretraining loop -/

theorem pretrainLoop_lengths :
    ∀ (aes : List DenoisingAutoencoder) (st : SDAEState) (t v : Data),
      (pretrainLoop st aes t v).state.encoding_w_.length =
          st.encoding_w_.length + aes.length ∧
      (pretrainLoop st aes t v).state.encoding_b_.length =
          st.encoding_b_.length + aes.length ∧
      (pretrainLoop st aes t v).autoencoders.length = aes.length ∧
      (pretrainLoop st aes t v).state.layers = st.layers ∧
      (pretrainLoop st aes t v).state.autoencoders = st.autoencoders := by
  intro aes
  induction aes with
  | nil => intro st t v; simp [pretrainLoop]
  | cons ae rest ih =>
      intro st t v
      obtain ⟨h1, h2, h3, h4, h5⟩ :=
        ih (resetDefaultGraph (pretrainAutoencoderAndGenFeed st ae t v).2.1)
          (pretrainAutoencoderAndGenFeed st ae t v).2.2.1
          (pretrainAutoencoderAndGenFeed st ae t v).2.2.2
      simp only [pretrainAutoencoderAndGenFeed, resetDefaultGraph] at h1 h2 h3 h4 h5
      refine ⟨?_, ?_, ?_, ?_, ?_⟩ <;>
        simp only [pretrainLoop, pretrainAutoencoderAndGenFeed, resetDefaultGraph,
          h1, h2, h3, h4, h5] <;>
        simp <;> omega

theorem pretrain_lengths (st : SDAEState) (t v : Data) :
    (pretrain st t v).1.encoding_w_.length =
        st.encoding_w_.length + st.autoencoders.length ∧
    (pretrain st t v).1.encoding_b_.length =
        st.encoding_b_.length + st.autoencoders.length ∧
    (pretrain st t v).1.autoencoders.length = st.autoencoders.length ∧
    (pretrain st t v).1.layers = st.layers := by
  obtain ⟨h1, h2, h3, h4, h5⟩ := pretrainLoop_lengths st.autoencoders st t v
  exact ⟨h1, h2, h3, h4⟩

theorem pretrainIter_lengths (t v : Data) :
    ∀ (k : Nat) (st : SDAEState),
      (pretrainIter t v st k).encoding_w_.length =
          st.encoding_w_.length + k * st.autoencoders.length ∧
      (pretrainIter t v st k).encoding_b_.length =
          st.encoding_b_.length + k * st.autoencoders.length ∧
      (pretrainIter t v st k).autoencoders.length = st.autoencoders.length ∧
      (pretrainIter t v st k).layers = st.layers := by
  intro k
  induction k with
  | zero => intro st; simp [pretrainIter]
  | succ k ih =>
      intro st
      obtain ⟨g1, g2, g3, g4⟩ := pretrain_lengths st t v
      obtain ⟨h1, h2, h3, h4⟩ := ih (pretrain st t v).1
      refine ⟨?_, ?_, ?_, ?_⟩
      · rw [pretrainIter, h1, g1, g3, Nat.succ_mul]
        ring
      · rw [pretrainIter, h2, g2, g3, Nat.succ_mul]
        ring
      · rw [pretrainIter, h3, g3]
      · rw [pretrainIter, h4, g4]

/-- Claim C9: `pretrain` appends to `encoding_w_` / `encoding_b_` without
clearing them: on a freshly constructed instance (empty parameter lists,
one autoencoder per configured layer) a single call leaves exactly
`len(layers)` weight matrices and bias vectors, but `k` successive calls
leave `k * len(layers)` of each — the parameter-count-equals-layer-count
invariant holds only after exactly one call. -/
theorem claim_C9_pretrain_accumulates (st : SDAEState) (t v : Data)
    (hw : st.encoding_w_ = []) (hb : st.encoding_b_ = [])
    (hae : st.autoencoders.length = st.layers.length) :
    ((pretrain st t v).1.encoding_w_.length = st.layers.length ∧
     (pretrain st t v).1.encoding_b_.length = st.layers.length) ∧
    ∀ k, (pretrainIter t v st k).encoding_w_.length = k * st.layers.length ∧
         (pretrainIter t v st k).encoding_b_.length = k * st.layers.length := by
  obtain ⟨g1, g2, g3, g4⟩ := pretrain_lengths st t v
  constructor
  · constructor
    · rw [g1, hw, hae]; simp
    · rw [g2, hb, hae]; simp
  · intro k
    obtain ⟨h1, h2, h3, h4⟩ := pretrainIter_lengths t v k st
    constructor
    · rw [h1, hw, hae]; simp
    · rw [h2, hb, hae]; simp

/-- Witness for C9: the fresh two-layer `exampleState`. -/
theorem claim_C9_witness :
    (exampleState.encoding_w_ = [] ∧ exampleState.encoding_b_ = [] ∧
     exampleState.autoencoders.length = exampleState.layers.length) ∧
    (((pretrain exampleState (Data.src 5 4) (Data.src 2 4)).1.encoding_w_.length =
        exampleState.layers.length ∧
      (pretrain exampleState (Data.src 5 4) (Data.src 2 4)).1.encoding_b_.length =
        exampleState.layers.length) ∧
     ∀ k, (pretrainIter (Data.src 5 4) (Data.src 2 4) exampleState k).encoding_w_.length =
            k * exampleState.layers.length ∧
          (pretrainIter (Data.src 5 4) (Data.src 2 4) exampleState k).encoding_b_.length =
            k * exampleState.layers.length) :=
  ⟨⟨rfl, rfl, rfl⟩,
   claim_C9_pretrain_accumulates exampleState (Data.src 5 4) (Data.src 2 4) rfl rfl rfl⟩

/-! ## The pretraining pipeline -/

theorem pretrainWs_length :
    ∀ (aes : List DenoisingAutoencoder) (t : Data),
      (pretrainWs t aes).length = aes.length := by
  intro aes
  induction aes with
  | nil => intro t; rfl
  | cons ae rest ih => intro t; simp [pretrainWs, ih]

theorem pretrainBs_length :
    ∀ (aes : List DenoisingAutoencoder) (t : Data),
      (pretrainBs t aes).length = aes.length := by
  intro aes
  induction aes with
  | nil => intro t; rfl
  | cons ae rest ih => intro t; simp [pretrainBs, ih]

theorem pretrainLoop_spec :
    ∀ (aes : List DenoisingAutoencoder) (st : SDAEState) (t v : Data),
      (pretrainLoop st aes t v).next_train =
          encStack (aes.map DenoisingAutoencoder.n_components) t ∧
      (pretrainLoop st aes t v).next_valid =
          encStack (aes.map DenoisingAutoencoder.n_components) v ∧
      (pretrainLoop st aes t v).state.encoding_w_ =
          st.encoding_w_ ++ pretrainWs t aes ∧
      (pretrainLoop st aes t v).state.encoding_b_ =
          st.encoding_b_ ++ pretrainBs t aes := by
  intro aes
  induction aes with
  | nil => intro st t v; simp [pretrainLoop, encStack, pretrainWs, pretrainBs]
  | cons ae rest ih =>
      intro st t v
      obtain ⟨h1, h2, h3, h4⟩ :=
        ih (resetDefaultGraph (pretrainAutoencoderAndGenFeed st ae t v).2.1)
          (pretrainAutoencoderAndGenFeed st ae t v).2.2.1
          (pretrainAutoencoderAndGenFeed st ae t v).2.2.2
      simp only [pretrainAutoencoderAndGenFeed, resetDefaultGraph,
        DenoisingAutoencoder.build_model, DenoisingAutoencoder.fit,
        DenoisingAutoencoder.get_model_parameters,
        DenoisingAutoencoder.transform] at h1 h2 h3 h4
      refine ⟨?_, ?_, ?_, ?_⟩ <;>
        simp only [pretrainLoop, pretrainAutoencoderAndGenFeed, resetDefaultGraph,
          DenoisingAutoencoder.build_model, DenoisingAutoencoder.fit,
          DenoisingAutoencoder.get_model_parameters, DenoisingAutoencoder.transform,
          h1, h2, h3, h4, List.map_cons, pretrainWs, pretrainBs, encStack,
          List.foldl_cons] <;>
        simp

theorem pretrainLoop_graph_reset :
    ∀ (aes : List DenoisingAutoencoder) (st : SDAEState) (t v : Data),
      aes ≠ [] → (pretrainLoop st aes t v).state.tfGraphOps = 0 := by
  intro aes
  induction aes with
  | nil => intro st t v h; exact absurd rfl h
  | cons ae rest ih =>
      intro st t v _
      cases rest with
      | nil => simp [pretrainLoop, resetDefaultGraph]
      | cons r rs =>
          have := ih (resetDefaultGraph (pretrainAutoencoderAndGenFeed st ae t v).2.1)
            (pretrainAutoencoderAndGenFeed st ae t v).2.2.1
            (pretrainAutoencoderAndGenFeed st ae t v).2.2.2 (by simp)
          simpa [pretrainLoop] using this

theorem pretrainWs_get :
    ∀ (aes : List DenoisingAutoencoder) (t : Data) (l : Nat) (h : l < aes.length),
      (pretrainWs t aes).get ⟨l, by rw [pretrainWs_length]; exact h⟩ =
        { rows := if l = 0 then t.cols
                  else (aes.map DenoisingAutoencoder.n_components).getD (l - 1) 0,
          cols := (aes.get ⟨l, h⟩).n_components,
          fitOn := some (encStack
            ((aes.map DenoisingAutoencoder.n_components).take l) t) } := by
  intro aes
  induction aes with
  | nil => intro t l h; exact absurd h (by simp)
  | cons ae rest ih =>
      intro t l h
      cases l with
      | zero =>
          simp [pretrainWs, encStack]
      | succ m =>
          have hm : m < rest.length := by simpa using h
          have hrec := ih (Data.transformed ae.n_components t) m hm
          simp only [pretrainWs, List.get_eq_getElem, List.getElem_cons_succ] at hrec ⊢
          rw [hrec]
          simp only [WeightMatrix.mk.injEq]
          refine ⟨?_, by simp, ?_⟩
          · cases m with
            | zero => simp [Data.cols]
            | succ m2 => simp
          · simp [encStack]

theorem pretrainBs_get :
    ∀ (aes : List DenoisingAutoencoder) (t : Data) (l : Nat) (h : l < aes.length),
      (pretrainBs t aes).get ⟨l, by rw [pretrainBs_length]; exact h⟩ =
        { len := (aes.get ⟨l, h⟩).n_components,
          fitOn := some (encStack
            ((aes.map DenoisingAutoencoder.n_components).take l) t) } := by
  intro aes
  induction aes with
  | nil => intro t l h; exact absurd h (by simp)
  | cons ae rest ih =>
      intro t l h
      cases l with
      | zero =>
          simp [pretrainBs, encStack]
      | succ m =>
          have hm : m < rest.length := by simpa using h
          have hrec := ih (Data.transformed ae.n_components t) m hm
          simp only [pretrainBs, List.get_eq_getElem, List.getElem_cons_succ] at hrec ⊢
          rw [hrec]
          simp only [BiasVector.mk.injEq]
          refine ⟨by simp, ?_⟩
          simp [encStack]

/-- Claim C1: `pretrain` processes the layers strictly in order: the returned
pair is the deepest layer's encoding of the train and validation sets; one
weight matrix and one bias vector are stored per layer, in order; the
`l`-th stored weight matrix comes from an autoencoder built to the current
input dimensionality (`train_set.shape[1]` for `l = 0`, the previous
layer's hidden width for `l > 0`), fit on the data as encoded by layers
`0..l-1` (not the original features), with output width `layers[l]`; and
the default graph has been reset after the last layer's autoencoder (as
between any two layers). -/
theorem claim_C1_pretrain_pipeline (st : SDAEState)
    (train_set validation_set : Data)
    (hw : st.encoding_w_ = []) (hb : st.encoding_b_ = []) :
    (pretrain st train_set validation_set).2.1 =
        encStack (st.autoencoders.map DenoisingAutoencoder.n_components) train_set ∧
    (pretrain st train_set validation_set).2.2 =
        encStack (st.autoencoders.map DenoisingAutoencoder.n_components)
          validation_set ∧
    (pretrain st train_set validation_set).1.encoding_w_ =
        pretrainWs train_set st.autoencoders ∧
    (pretrain st train_set validation_set).1.encoding_b_ =
        pretrainBs train_set st.autoencoders ∧
    (∀ l (h : l < st.autoencoders.length),
      (pretrainWs train_set st.autoencoders).get
          ⟨l, by rw [pretrainWs_length]; exact h⟩ =
        { rows := if l = 0 then train_set.cols
                  else (st.autoencoders.map
                    DenoisingAutoencoder.n_components).getD (l - 1) 0,
          cols := (st.autoencoders.get ⟨l, h⟩).n_components,
          fitOn := some (encStack
            ((st.autoencoders.map DenoisingAutoencoder.n_components).take l)
            train_set) } ∧
      (pretrainBs train_set st.autoencoders).get
          ⟨l, by rw [pretrainBs_length]; exact h⟩ =
        { len := (st.autoencoders.get ⟨l, h⟩).n_components,
          fitOn := some (encStack
            ((st.autoencoders.map DenoisingAutoencoder.n_components).take l)
            train_set) }) ∧
    (st.autoencoders ≠ [] →
      (pretrain st train_set validation_set).1.tfGraphOps = 0) := by
  obtain ⟨h1, h2, h3, h4⟩ :=
    pretrainLoop_spec st.autoencoders st train_set validation_set
  refine ⟨?_, ?_, ?_, ?_, ?_, ?_⟩
  · simpa [pretrain] using h1
  · simpa [pretrain] using h2
  · simp [pretrain, h3, hw]
  · simp [pretrain, h4, hb]
  · intro l h
    exact ⟨pretrainWs_get st.autoencoders train_set l h,
           pretrainBs_get st.autoencoders train_set l h⟩
  · intro hne
    simpa [pretrain] using
      pretrainLoop_graph_reset st.autoencoders st train_set validation_set hne

/-- Witness for C1: the fresh two-layer `exampleState` on a 5-row, 4-column
training set and a 2-row, 4-column validation set. -/
theorem claim_C1_witness :
    (exampleState.encoding_w_ = [] ∧ exampleState.encoding_b_ = []) ∧
    ((pretrain exampleState (Data.src 5 4) (Data.src 2 4)).2.1 =
        encStack (exampleState.autoencoders.map DenoisingAutoencoder.n_components)
          (Data.src 5 4) ∧
     (pretrain exampleState (Data.src 5 4) (Data.src 2 4)).2.2 =
        encStack (exampleState.autoencoders.map DenoisingAutoencoder.n_components)
          (Data.src 2 4) ∧
     (pretrain exampleState (Data.src 5 4) (Data.src 2 4)).1.encoding_w_ =
        pretrainWs (Data.src 5 4) exampleState.autoencoders ∧
     (pretrain exampleState (Data.src 5 4) (Data.src 2 4)).1.encoding_b_ =
        pretrainBs (Data.src 5 4) exampleState.autoencoders ∧
     (∀ l (h : l < exampleState.autoencoders.length),
       (pretrainWs (Data.src 5 4) exampleState.autoencoders).get
           ⟨l, by rw [pretrainWs_length]; exact h⟩ =
         { rows := if l = 0 then (Data.src 5 4).cols
                   else (exampleState.autoencoders.map
                     DenoisingAutoencoder.n_components).getD (l - 1) 0,
           cols := (exampleState.autoencoders.get ⟨l, h⟩).n_components,
           fitOn := some (encStack
             ((exampleState.autoencoders.map
               DenoisingAutoencoder.n_components).take l) (Data.src 5 4)) } ∧
       (pretrainBs (Data.src 5 4) exampleState.autoencoders).get
           ⟨l, by rw [pretrainBs_length]; exact h⟩ =
         { len := (exampleState.autoencoders.get ⟨l, h⟩).n_components,
           fitOn := some (encStack
             ((exampleState.autoencoders.map
               DenoisingAutoencoder.n_components).take l) (Data.src 5 4)) }) ∧
     (exampleState.autoencoders ≠ [] →
       (pretrain exampleState (Data.src 5 4) (Data.src 2 4)).1.tfGraphOps = 0)) :=
  ⟨⟨rfl, rfl⟩,
   claim_C1_pretrain_pipeline exampleState (Data.src 5 4) (Data.src 2 4) rfl rfl⟩

/-! ## Determinism of evaluation at keep-probability 1 -/

theorem dropoutRow_one (u : Nat → ℚ) (hu : ∀ j, 0 ≤ u j ∧ u j < 1) :
    ∀ (row : List ℚ) (j : Nat), dropoutRow 1 u row j = row := by
  intro row
  induction row with
  | nil => intro j; rfl
  | cons v vs ih =>
      intro j
      simp only [dropoutRow, ih]
      have h1 : ⌊(1 : ℚ) + u j⌋ = 1 := by
        rw [add_comm, Int.floor_add_one,
          Int.floor_eq_zero_iff.mpr (Set.mem_Ico.mpr ⟨(hu j).1, (hu j).2⟩)]
        norm_num
      rw [h1]
      norm_num

theorem dropoutRows_one (u : Nat → Nat → ℚ) (hu : ∀ i j, 0 ≤ u i j ∧ u i j < 1) :
    ∀ (x : Mat) (i : Nat), dropoutRows 1 u x i = x := by
  intro x
  induction x with
  | nil => intro i; rfl
  | cons row rows ih =>
      intro i
      simp only [dropoutRows, ih]
      rw [dropoutRow_one (u i) (fun j => hu i j)]

theorem dropoutMat_one (x : Mat) (u : Nat → Nat → ℚ)
    (hu : ∀ i j, 0 ≤ u i j ∧ u i j < 1) : dropoutMat x 1 u = x :=
  dropoutRows_one u hu x 0

theorem isKeepProb_eq_true_iff (k : TFNode) : isKeepProb k = true ↔ k = .keepProb := by
  cases k <;> simp [isKeepProb]

theorem evalNode_rand_irrel (e : EvalEnv) (r2 : Nat → Nat → Nat → ℚ)
    (hk : e.keep_prob = 1) (hb1 : randBounded e.rand) (hb2 : randBounded r2) :
    ∀ (n : TFNode) (c : Nat), dropoutKeepOk n = true →
      evalNode { e with rand := r2 } n c = evalNode e n c
  | .inputData, _, _ => rfl
  | .inputLabels, _, _ => rfl
  | .keepProb, _, _ => rfl
  | .encW _, _, _ => rfl
  | .encB _, _, _ => rfl
  | .smW, _, _ => rfl
  | .smB, _, _ => rfl
  | .matmul a b, c, h => by
      simp only [dropoutKeepOk, Bool.and_eq_true] at h
      simp only [evalNode]
      rw [evalNode_rand_irrel e r2 hk hb1 hb2 a c h.1,
          evalNode_rand_irrel e r2 hk hb1 hb2 b _ h.2]
  | .add a b, c, h => by
      simp only [dropoutKeepOk, Bool.and_eq_true] at h
      simp only [evalNode]
      rw [evalNode_rand_irrel e r2 hk hb1 hb2 a c h.1,
          evalNode_rand_irrel e r2 hk hb1 hb2 b _ h.2]
  | .sigmoid x, c, h => by
      simp only [dropoutKeepOk] at h
      simp only [evalNode]
      rw [evalNode_rand_irrel e r2 hk hb1 hb2 x c h]
  | .tanh x, c, h => by
      simp only [dropoutKeepOk] at h
      simp only [evalNode]
      rw [evalNode_rand_irrel e r2 hk hb1 hb2 x c h]
  | .relu x, c, h => by
      simp only [dropoutKeepOk] at h
      simp only [evalNode]
      rw [evalNode_rand_irrel e r2 hk hb1 hb2 x c h]
  | .dropout none k, c, h => by
      simp only [dropoutKeepOk] at h
      rw [(isKeepProb_eq_true_iff k).mp h]
      rfl
  | .dropout (some y) k, c, h => by
      simp only [dropoutKeepOk, Bool.and_eq_true] at h
      rw [(isKeepProb_eq_true_iff k).mp h.2]
      simp only [evalNode]
      rw [evalNode_rand_irrel e r2 hk hb1 hb2 y c h.1]
      have hsc : scalarOf [[e.keep_prob]] = 1 := by simp [scalarOf, hk]
      rw [hsc]
      rw [dropoutMat_one _ _ (fun i j => hb2 _ i j),
          dropoutMat_one _ _ (fun i j => hb1 _ i j)]

theorem encodingLayersAux_fst_ok (act : String) :
    ∀ (n l : Nat) (t : TFNode), dropoutKeepOk t = true →
      dropoutKeepOk (encodingLayersAux act t l n).1 = true := by
  intro n
  induction n with
  | zero => intro l t h; exact h
  | succ n ih =>
      intro l t h
      apply ih
      by_cases h1 : act = "sigmoid"
      · simp [encodingLayerStep, h1, dropoutKeepOk, isKeepProb, h]
      by_cases h2 : act = "tanh"
      · simp [encodingLayerStep, h1, h2, dropoutKeepOk, isKeepProb, h]
      by_cases h3 : act = "relu"
      · simp [encodingLayerStep, h1, h2, h3, dropoutKeepOk, isKeepProb, h]
      · simp [encodingLayerStep, h1, h2, h3, dropoutKeepOk, isKeepProb, h]

theorem buildGraph_softmax_ok (act : String) (L : Nat) :
    dropoutKeepOk (buildGraph act L).softmax_out = true := by
  have h := encodingLayersAux_fst_ok act L 0 TFNode.inputData (by rfl)
  simp [buildGraph, createSoftmaxLayer, createEncodingLayers, dropoutKeepOk, h]

/-- Claim C6: `compute_accuracy` restores the persisted parameters and runs the
forward pass with `keep_prob = 1`, which makes every dropout node the
identity regardless of the uniform draws of the session: two successive
calls on the same test set, labels, and persisted model return the same
value even though each fresh session draws different dropout randomness. -/
theorem claim_C6_compute_accuracy_deterministic (act : String) (L : Nat)
    (sigmoidF tanhF : ℚ → ℚ) (r1 r2 : Nat → Nat → Nat → ℚ)
    (persisted : TrainedModel) (test_set test_labels : Mat)
    (hb1 : randBounded r1) (hb2 : randBounded r2) :
    compute_accuracy (buildGraph act L) sigmoidF tanhF r1 persisted
        test_set test_labels =
      compute_accuracy (buildGraph act L) sigmoidF tanhF r2 persisted
        test_set test_labels := by
  unfold compute_accuracy evalAccuracy
  have he : mkEnv persisted sigmoidF tanhF r2 test_set test_labels 1 =
      { mkEnv persisted sigmoidF tanhF r1 test_set test_labels 1 with rand := r2 } := rfl
  rw [he, evalNode_rand_irrel
    (mkEnv persisted sigmoidF tanhF r1 test_set test_labels 1) r2 rfl hb1 hb2
    (buildGraph act L).softmax_out 0 (buildGraph_softmax_ok act L)]

/-- Witness for C6: a 1-layer relu network on a single sample, with two
different dropout-randomness streams. -/
theorem claim_C6_witness :
    randBounded randZero ∧ randBounded randHalf ∧
    compute_accuracy (buildGraph "relu" 1) id id randZero exampleModel
        [[1]] [[1]] =
      compute_accuracy (buildGraph "relu" 1) id id randHalf exampleModel
        [[1]] [[1]] := by
  have hz : randBounded randZero := by
    intro c i j
    constructor <;> norm_num [randZero]
  have hh : randBounded randHalf := by
    intro c i j
    constructor <;> norm_num [randHalf]
  exact ⟨hz, hh,
    claim_C6_compute_accuracy_deterministic "relu" 1 id id randZero randHalf
      exampleModel [[1]] [[1]] hz hh⟩

end SDAE
